import Mathlib

/-!
Shallow embedding of the sidereal-time calculator (src/main.rs and
src/libastro.rs).  Floating-point values are embedded as exact rationals;
dates and times are records of integer fields mirroring the chrono types.
The two routines living in the native libastro dependency (cal_mjd and
utc_gst) are not part of this crate; they are modelled from the spec, as
marked on their doc comments.
-/

namespace Sidtime

/-- Time of day, mirroring the chrono NaiveTime accessors used by the code
(hour, minute, second, nanosecond). -/
structure Time where
  hour : ℕ
  minute : ℕ
  second : ℕ
  nanosecond : ℕ
deriving DecidableEq

/-- A chrono NaiveTime produced by this program is valid when the fields are
in range; the nanosecond field stays below one billion because the program
never constructs leap-second representations. -/
def validTime (t : Time) : Prop :=
  t.hour < 24 ∧ t.minute < 60 ∧ t.second < 60 ∧ t.nanosecond < 1000000000

instance (t : Time) : Decidable (validTime t) := by
  unfold validTime
  exact inferInstance

/-- Calendar date, mirroring the chrono NaiveDate accessors used by the code
(year, month, day). -/
structure Date where
  year : ℤ
  month : ℕ
  day : ℕ
deriving DecidableEq

/-- A chrono NaiveDateTime: a date together with a time of day. -/
structure DateTime where
  date : Date
  time : Time
deriving DecidableEq

/-- Rust f64::trunc on exact rationals: round toward zero. -/
def truncQ (x : ℚ) : ℤ := if 0 ≤ x then ⌊x⌋ else ⌈x⌉

/-- Rust f64::fract on exact rationals: x - x.trunc(), which is negative for
negative x (truncated, not floored, fractional part). -/
def fractQ (x : ℚ) : ℚ := x - truncQ x

/-- Rust `as u32` cast from f64: truncate toward zero, then saturate into the
u32 range. -/
def asU32 (x : ℚ) : ℕ := (min (max (truncQ x) 0) 4294967295).toNat

/-- src/main.rs utc_to_float: decimal UTC hours,
hour + minute/60 + second/3600 + nanosecond/3.6e12. -/
def utc_to_float (t : Time) : ℚ :=
  (t.hour : ℚ) + (t.minute : ℚ) / 60 + (t.second : ℚ) / (60 * 60)
    + (t.nanosecond : ℚ) / (60 * 60 * 1000000000)

/-- Year adjustment of the modelled cal_mjd: January and February count as
months 13 and 14 of the previous year. -/
def cal_mjd_y (mn yr : ℤ) : ℤ := if mn < 3 then yr - 1 else yr

/-- Month adjustment of the modelled cal_mjd. -/
def cal_mjd_m (mn : ℤ) : ℤ := if mn < 3 then mn + 12 else mn

/-- Gregorian-cutover correction term of the modelled cal_mjd: zero for dates
before the October 1582 cutover (a Julian-calendar date), otherwise the
century leap correction 2 - y/100 + y/100/4. -/
def cal_mjd_b (mn : ℤ) (dy : ℚ) (yr : ℤ) : ℤ :=
  if yr < 1582 ∨ (yr = 1582 ∧ (mn < 10 ∨ (mn = 10 ∧ dy < 15))) then 0
  else 2 - cal_mjd_y mn yr / 100 + cal_mjd_y mn yr / 100 / 4

/-- Year term floor(365.25 * (y + 4716)) of the modelled cal_mjd. -/
def cal_mjd_c (mn yr : ℤ) : ℤ := ⌊(1461 : ℚ) / 4 * ((cal_mjd_y mn yr : ℚ) + 4716)⌋

/-- Month term floor(30.6001 * (m + 1)) of the modelled cal_mjd. -/
def cal_mjd_d (mn : ℤ) : ℤ := ⌊(306001 : ℚ) / 10000 * ((cal_mjd_m mn : ℚ) + 1)⌋

/-- Modelled from the spec: cal_mjd comes from the native libastro dependency
and its source is not in this repository.  Per the spec it is the classical
Gregorian-calendar Julian-day algorithm with the October 1582 cutover and the
MJD epoch offset of 2400000.5 days from the Julian day number; the JDN
constant -1524.5 and the epoch offset -2400000.5 combine into the integer
-2401525.  The day argument dy may carry a fractional part. -/
def cal_mjd (mn : ℤ) (dy : ℚ) (yr : ℤ) : ℚ :=
  ((cal_mjd_c mn yr + cal_mjd_d mn + cal_mjd_b mn dy yr : ℤ) : ℚ) + dy - 2401525

/-- src/main.rs mjd_from_gregorian_date: calls cal_mjd with the integer day,
month and year of the date. -/
def mjd_from_gregorian_date (d : Date) : ℚ := cal_mjd (d.month : ℤ) (d.day : ℚ) d.year

/-- src/main.rs mjd_from_gregorian_datetime: the date-only MJD plus
utc_to_float of the time. -/
def mjd_from_gregorian_datetime (dt : DateTime) : ℚ :=
  mjd_from_gregorian_date dt.date + utc_to_float dt.time

/-- src/libastro.rs mjd_from_gregorian: passes
day + hour/24 + minute/60 + second/3600 as the (fractional) day argument of
cal_mjd. -/
def mjd_from_gregorian (dt : DateTime) : ℚ :=
  cal_mjd (dt.date.month : ℤ)
    ((dt.date.day : ℚ) + (dt.time.hour : ℚ) / 24 + (dt.time.minute : ℚ) / 60
      + (dt.time.second : ℚ) / 3600)
    dt.date.year

/-- The fractional-day contribution of a time of day as the spec words it:
hour/24 + minute/1440 + second/86400 plus the sub-second term.  Stated from
the spec for comparison with the code. -/
def fractionalDayFromTime_spec (t : Time) : ℚ :=
  (t.hour : ℚ) / 24 + (t.minute : ℚ) / 1440 + (t.second : ℚ) / 86400
    + (t.nanosecond : ℚ) / 86400000000000

/-- Modelled from the spec: utc_gst comes from the native libastro dependency
and its source is not in this repository.  Per the spec it is the standard
mean-sidereal-time polynomial in centuries since the J2000-equivalent epoch
(MJD 51544.5), giving GMST at 0h UT of the given day, plus the sidereal rate
times the elapsed UTC hours, with no normalization into [0, 24). -/
def utc_gst (mjd utc : ℚ) : ℚ :=
  (6.697374558 : ℚ) + (2400.051336 : ℚ) * ((mjd - 51544.5) / 36525)
    + (0.000025862 : ℚ) * ((mjd - 51544.5) / 36525) ^ 2
    + (1.0027379093 : ℚ) * utc

/-- src/main.rs greenwich_mean_sidereal_time: utc_gst applied to the floor of
the date-only MJD and the decimal UTC hours of the time. -/
def greenwich_mean_sidereal_time (dt : DateTime) : ℚ :=
  utc_gst ((⌊mjd_from_gregorian_date dt.date⌋ : ℤ) : ℚ) (utc_to_float dt.time)

/-- src/main.rs local_mean_sidereal_time:
24 * ((gmst + longitude/15) / 24).fract() with the Rust truncating fract. -/
def local_mean_sidereal_time (gmst longitude : ℚ) : ℚ :=
  24 * fractQ ((gmst + longitude / 15) / 24)

/-- Result of src/main.rs get_timezone: the three anyhow error cases (no
timezone found, the ambiguous multi-match Todo error, and a failed chrono-tz
string conversion) and the success case. -/
inductive TzResult where
  | noTimezoneFound
  | ambiguousTimezone
  | conversionFailed
  | ok (tz : String)
deriving DecidableEq

/-- src/main.rs get_timezone, with the tzf-rs finder and the chrono-tz parser
abstracted as parameters: match on the number of zone names found (zero gives
the No-timezones-found error, two or more gives the Todo error), then convert
the unique name with Tz::from_str. -/
def get_timezone (finder : ℚ → ℚ → List String) (fromStr : String → Option String)
    (latitude longitude : ℚ) : TzResult :=
  match finder longitude latitude with
  | [] => TzResult.noTimezoneFound
  | [t] =>
    match fromStr t with
    | some tz => TzResult.ok tz
    | none => TzResult.conversionFailed
  | _ :: _ :: _ => TzResult.ambiguousTimezone

/-- Sign-magnitude model of a finite f64 input (NaN and the infinities are
outside this embedding); sign true means the sign bit is set, so the value
-0.0 is represented as sign true with magnitude 0. -/
structure F64 where
  sign : Bool
  mag : ℚ
deriving DecidableEq

/-- The rational value of a sign-magnitude f64. -/
def F64.toRat (x : F64) : ℚ := if x.sign then -x.mag else x.mag

/-- Rust f64::is_sign_positive: true exactly when the sign bit is clear. -/
def F64.isSignPositive (x : F64) : Bool := !x.sign

/-- chrono NaiveTime::from_hms_nano_opt: requires hour below 24, minute and
second below 60, and nanosecond below two billion (values of one billion and
above encode leap seconds). -/
def from_hms_nano_opt (h m s n : ℕ) : Option Time :=
  if h < 24 ∧ m < 60 ∧ s < 60 ∧ n < 2000000000 then some ⟨h, m, s, n⟩ else none

/-- Outcome of src/main.rs decimal_to_time: the failed assert (a process
panic), the Err case of the Result, or Ok. -/
inductive DecodeOutcome where
  | panics
  | fails (msg : String)
  | ok (t : Time)
deriving DecidableEq

/-- src/main.rs decimal_to_time: asserts that the sign bit is clear (panics
otherwise), then decomposes the decimal hours with the truncating fract and
saturating `as u32` casts, and builds a NaiveTime, turning a failed build
into the anyhow error. -/
def decimal_to_time (x : F64) : DecodeOutcome :=
  if x.isSignPositive then
    match from_hms_nano_opt (asU32 x.toRat) (asU32 (fractQ x.toRat * 60))
        (asU32 (fractQ (fractQ x.toRat * 60) * 60))
        (asU32 (fractQ (fractQ (fractQ x.toRat * 60) * 60) * 1000000000)) with
    | some t => DecodeOutcome.ok t
    | none => DecodeOutcome.fails "Time conversion failed"
  else DecodeOutcome.panics

/-- Nanoseconds since midnight of a chrono NaiveTime (non-leap times). -/
def timeNanos (t : Time) : ℤ :=
  (((t.hour * 3600 + t.minute * 60 + t.second) * 1000000000 + t.nanosecond : ℕ) : ℤ)

/-- chrono NaiveTime::signed_duration_since for non-leap times, in
nanoseconds. -/
def signed_duration_since (a b : Time) : ℤ := timeNanos a - timeNanos b

/-- The fixed target sidereal time of src/main.rs, 13:30:00. -/
def spotiswoode_peak_time : Time := ⟨13, 30, 0, 0⟩

/-- Body of the time_until_peak block of src/main.rs, generalized over the
target: the signed duration from the current LMST clock time to the target,
plus 24 hours when negative. -/
def time_until (current target : Time) : ℤ :=
  if signed_duration_since target current < 0 then
    signed_duration_since target current + 24 * 3600 * 1000000000
  else signed_duration_since target current

/-- src/main.rs time_until_peak with the fixed 13:30:00 target. -/
def time_until_peak (current : Time) : ℤ := time_until current spotiswoode_peak_time

/-! ## Helper lemmas -/

theorem truncQ_of_nonneg {x : ℚ} (h : 0 ≤ x) : truncQ x = ⌊x⌋ := if_pos h

theorem fractQ_eq_sub_floor {x : ℚ} (h : 0 ≤ x) : fractQ x = x - ⌊x⌋ := by
  rw [fractQ, truncQ_of_nonneg h]

theorem fractQ_nonneg {x : ℚ} (h : 0 ≤ x) : 0 ≤ fractQ x := by
  rw [fractQ_eq_sub_floor h]
  have := Int.floor_le x
  linarith

theorem fractQ_lt_one {x : ℚ} (h : 0 ≤ x) : fractQ x < 1 := by
  rw [fractQ_eq_sub_floor h]
  have := Int.lt_floor_add_one x
  linarith

theorem floor_natCast_add {k : ℕ} {f : ℚ} (h0 : 0 ≤ f) (h1 : f < 1) :
    ⌊(k : ℚ) + f⌋ = (k : ℤ) := by
  rw [Int.floor_eq_iff]
  constructor
  · push_cast
    linarith
  · push_cast
    linarith

theorem asU32_eq {x : ℚ} {k : ℕ} (hx : 0 ≤ x) (hk : ⌊x⌋ = (k : ℤ))
    (hb : k ≤ 4294967295) : asU32 x = k := by
  unfold asU32
  rw [truncQ_of_nonneg hx, hk]
  omega

theorem asU32_lt {x : ℚ} {n : ℕ} (hx : 0 ≤ x) (hn : x < (n : ℚ)) : asU32 x < n := by
  unfold asU32
  rw [truncQ_of_nonneg hx]
  have h1 : (0 : ℤ) ≤ ⌊x⌋ := Int.floor_nonneg.mpr hx
  have h2 : ⌊x⌋ < (n : ℤ) := Int.floor_lt.mpr (by exact_mod_cast hn)
  omega

theorem asU32_ge_24 {x : ℚ} (hx : (24 : ℚ) ≤ x) : 24 ≤ asU32 x := by
  unfold asU32
  rw [truncQ_of_nonneg (le_trans (by norm_num) hx)]
  have h2 : (24 : ℤ) ≤ ⌊x⌋ := Int.le_floor.mpr (by exact_mod_cast hx)
  omega

theorem decode_decimal_hours (t : Time) (h : validTime t) :
    decimal_to_time ⟨false, utc_to_float t⟩ = DecodeOutcome.ok t := by
  obtain ⟨hh, hm, hs, hn⟩ := h
  have hm59 : (t.minute : ℚ) ≤ 59 := by
    have : t.minute ≤ 59 := by omega
    exact_mod_cast this
  have hs59 : (t.second : ℚ) ≤ 59 := by
    have : t.second ≤ 59 := by omega
    exact_mod_cast this
  have hn9 : (t.nanosecond : ℚ) ≤ 999999999 := by
    have : t.nanosecond ≤ 999999999 := by omega
    exact_mod_cast this
  have hmq : (0 : ℚ) ≤ (t.minute : ℚ) := Nat.cast_nonneg _
  have hsq : (0 : ℚ) ≤ (t.second : ℚ) := Nat.cast_nonneg _
  have hnq : (0 : ℚ) ≤ (t.nanosecond : ℚ) := Nat.cast_nonneg _
  have hx : utc_to_float t = (t.hour : ℚ)
      + ((t.minute : ℚ) / 60 + (t.second : ℚ) / 3600
        + (t.nanosecond : ℚ) / 3600000000000) := by
    rw [utc_to_float]
    ring
  have hf1_0 : (0 : ℚ) ≤ (t.minute : ℚ) / 60 + (t.second : ℚ) / 3600
      + (t.nanosecond : ℚ) / 3600000000000 := by positivity
  have hf1_1 : (t.minute : ℚ) / 60 + (t.second : ℚ) / 3600
      + (t.nanosecond : ℚ) / 3600000000000 < 1 := by linarith
  have hx0 : (0 : ℚ) ≤ utc_to_float t := by
    rw [hx]
    positivity
  have hfloor1 : ⌊utc_to_float t⌋ = (t.hour : ℤ) := by
    rw [hx]
    exact floor_natCast_add hf1_0 hf1_1
  have hfr1 : fractQ (utc_to_float t) = (t.minute : ℚ) / 60 + (t.second : ℚ) / 3600
      + (t.nanosecond : ℚ) / 3600000000000 := by
    rw [fractQ_eq_sub_floor hx0, hfloor1, hx]
    push_cast
    ring
  have hmin : fractQ (utc_to_float t) * 60 = (t.minute : ℚ)
      + ((t.second : ℚ) / 60 + (t.nanosecond : ℚ) / 60000000000) := by
    rw [hfr1]
    ring
  have hf2_0 : (0 : ℚ) ≤ (t.second : ℚ) / 60 + (t.nanosecond : ℚ) / 60000000000 := by
    positivity
  have hf2_1 : (t.second : ℚ) / 60 + (t.nanosecond : ℚ) / 60000000000 < 1 := by linarith
  have hmin0 : (0 : ℚ) ≤ fractQ (utc_to_float t) * 60 := by
    rw [hmin]
    positivity
  have hfloor2 : ⌊fractQ (utc_to_float t) * 60⌋ = (t.minute : ℤ) := by
    rw [hmin]
    exact floor_natCast_add hf2_0 hf2_1
  have hfr2 : fractQ (fractQ (utc_to_float t) * 60)
      = (t.second : ℚ) / 60 + (t.nanosecond : ℚ) / 60000000000 := by
    rw [fractQ_eq_sub_floor hmin0, hfloor2, hmin]
    push_cast
    ring
  have hsec : fractQ (fractQ (utc_to_float t) * 60) * 60
      = (t.second : ℚ) + (t.nanosecond : ℚ) / 1000000000 := by
    rw [hfr2]
    ring
  have hf3_0 : (0 : ℚ) ≤ (t.nanosecond : ℚ) / 1000000000 := by positivity
  have hf3_1 : (t.nanosecond : ℚ) / 1000000000 < 1 := by linarith
  have hsec0 : (0 : ℚ) ≤ fractQ (fractQ (utc_to_float t) * 60) * 60 := by
    rw [hsec]
    positivity
  have hfloor3 : ⌊fractQ (fractQ (utc_to_float t) * 60) * 60⌋ = (t.second : ℤ) := by
    rw [hsec]
    exact floor_natCast_add hf3_0 hf3_1
  have hfr3 : fractQ (fractQ (fractQ (utc_to_float t) * 60) * 60)
      = (t.nanosecond : ℚ) / 1000000000 := by
    rw [fractQ_eq_sub_floor hsec0, hfloor3, hsec]
    push_cast
    ring
  have hns : fractQ (fractQ (fractQ (utc_to_float t) * 60) * 60) * 1000000000
      = (t.nanosecond : ℚ) := by
    rw [hfr3]
    ring
  have hns0 : (0 : ℚ) ≤ fractQ (fractQ (fractQ (utc_to_float t) * 60) * 60)
      * 1000000000 := by
    rw [hns]
    positivity
  have hfloor4 : ⌊fractQ (fractQ (fractQ (utc_to_float t) * 60) * 60) * 1000000000⌋
      = (t.nanosecond : ℤ) := by
    rw [hns]
    exact Int.floor_natCast _
  have e1 : asU32 (utc_to_float t) = t.hour := asU32_eq hx0 hfloor1 (by omega)
  have e2 : asU32 (fractQ (utc_to_float t) * 60) = t.minute :=
    asU32_eq hmin0 hfloor2 (by omega)
  have e3 : asU32 (fractQ (fractQ (utc_to_float t) * 60) * 60) = t.second :=
    asU32_eq hsec0 hfloor3 (by omega)
  have e4 : asU32 (fractQ (fractQ (fractQ (utc_to_float t) * 60) * 60) * 1000000000)
      = t.nanosecond := asU32_eq hns0 hfloor4 (by omega)
  unfold decimal_to_time
  rw [if_pos (show F64.isSignPositive ⟨false, utc_to_float t⟩ = true from rfl)]
  have htr : F64.toRat ⟨false, utc_to_float t⟩ = utc_to_float t := rfl
  rw [htr, e1, e2, e3, e4]
  unfold from_hms_nano_opt
  rw [if_pos ⟨hh, hm, hs, by omega⟩]

theorem decimal_to_time_ok_of_lt (m : ℚ) (h0 : 0 ≤ m) (hlt : m < 24) :
    decimal_to_time ⟨false, m⟩ = DecodeOutcome.ok
      ⟨asU32 m, asU32 (fractQ m * 60), asU32 (fractQ (fractQ m * 60) * 60),
        asU32 (fractQ (fractQ (fractQ m * 60) * 60) * 1000000000)⟩ := by
  have h2_0 : (0 : ℚ) ≤ fractQ m * 60 := mul_nonneg (fractQ_nonneg h0) (by norm_num)
  have h2_1 : fractQ m * 60 < 60 := by
    have := fractQ_lt_one h0
    linarith
  have h3_0 : (0 : ℚ) ≤ fractQ (fractQ m * 60) * 60 :=
    mul_nonneg (fractQ_nonneg h2_0) (by norm_num)
  have h3_1 : fractQ (fractQ m * 60) * 60 < 60 := by
    have := fractQ_lt_one h2_0
    linarith
  have h4_0 : (0 : ℚ) ≤ fractQ (fractQ (fractQ m * 60) * 60) * 1000000000 :=
    mul_nonneg (fractQ_nonneg h3_0) (by norm_num)
  have h4_1 : fractQ (fractQ (fractQ m * 60) * 60) * 1000000000 < 2000000000 := by
    have := fractQ_lt_one h3_0
    linarith
  unfold decimal_to_time
  rw [if_pos (show F64.isSignPositive ⟨false, m⟩ = true from rfl)]
  have htr : F64.toRat ⟨false, m⟩ = m := rfl
  rw [htr]
  unfold from_hms_nano_opt
  rw [if_pos ⟨asU32_lt h0 (by exact_mod_cast hlt), asU32_lt h2_0 (by exact_mod_cast h2_1),
    asU32_lt h3_0 (by exact_mod_cast h3_1), asU32_lt h4_0 (by exact_mod_cast h4_1)⟩]

theorem decimal_to_time_fails_of_ge (m : ℚ) (hge : (24 : ℚ) ≤ m) :
    decimal_to_time ⟨false, m⟩ = DecodeOutcome.fails "Time conversion failed" := by
  have h24 : 24 ≤ asU32 m := asU32_ge_24 hge
  unfold decimal_to_time
  rw [if_pos (show F64.isSignPositive ⟨false, m⟩ = true from rfl)]
  have htr : F64.toRat ⟨false, m⟩ = m := rfl
  rw [htr]
  unfold from_hms_nano_opt
  rw [if_neg (fun hcon => absurd hcon.1 (by omega))]

/-! ## Claim theorems -/

/-- Claim C1 (code bug): src/main.rs mjd_from_gregorian_datetime adds
utc_to_float, the decimal-hours value, to the date-only MJD, not the
fractional-day contribution hour/24 + minute/1440 + second/86400 that the
claim states: at noon it adds 12 whole days instead of half a day. -/
theorem mjd_datetime_adds_decimal_hours :
    mjd_from_gregorian_datetime ⟨⟨2000, 1, 1⟩, ⟨12, 0, 0, 0⟩⟩
        = mjd_from_gregorian_date ⟨2000, 1, 1⟩ + 12
    ∧ fractionalDayFromTime_spec ⟨12, 0, 0, 0⟩ = 1 / 2
    ∧ mjd_from_gregorian_datetime ⟨⟨2000, 1, 1⟩, ⟨12, 0, 0, 0⟩⟩
        ≠ mjd_from_gregorian_date ⟨2000, 1, 1⟩
          + fractionalDayFromTime_spec ⟨12, 0, 0, 0⟩ := by
  refine ⟨?_, ?_, ?_⟩
  · show mjd_from_gregorian_date _ + utc_to_float _ = _
    norm_num [utc_to_float]
  · norm_num [fractionalDayFromTime_spec]
  · show mjd_from_gregorian_date _ + utc_to_float _ ≠ _
    norm_num [utc_to_float, fractionalDayFromTime_spec]

/-- Claim C2 (code bug): src/main.rs local_mean_sidereal_time uses the Rust
truncating fract, so at gmst 1.0 and longitude -150 it returns -9.0, a
negative value, not the 15.0 that the floored fractional part (and the range
[0, 24)) would demand. -/
theorem lmst_negative_longitude_bug :
    local_mean_sidereal_time 1 (-150) = -9
    ∧ ¬ (0 ≤ local_mean_sidereal_time 1 (-150))
    ∧ local_mean_sidereal_time 1 (-150) ≠ 15 := by
  have hval : local_mean_sidereal_time 1 (-150) = -9 := by
    have hc : ((1 : ℚ) + -150 / 15) / 24 = -(3 / 8) := by norm_num
    have h0 : ¬ ((0 : ℚ) ≤ -(3 / 8)) := by norm_num
    have hceil : (⌈(-(3 / 8) : ℚ)⌉ : ℤ) = 0 := by norm_num
    rw [local_mean_sidereal_time, fractQ, truncQ, hc, if_neg h0, hceil]
    norm_num
  refine ⟨hval, by rw [hval]; norm_num, by rw [hval]; norm_num⟩

/-- Claim C5: the modelled mjd_from_gregorian_date maps 1900-01-01 to exactly
15020, and every date-only conversion has fractional part exactly 0. -/
theorem mjd_known_value_and_integral :
    mjd_from_gregorian_date ⟨1900, 1, 1⟩ = 15020
    ∧ ∀ d : Date, Int.fract (mjd_from_gregorian_date d) = 0 := by
  constructor
  · norm_num [mjd_from_gregorian_date, cal_mjd, cal_mjd_b, cal_mjd_c, cal_mjd_d,
      cal_mjd_y, cal_mjd_m]
  · intro d
    have h : mjd_from_gregorian_date d
        = ((cal_mjd_c (d.month : ℤ) d.year + cal_mjd_d (d.month : ℤ)
            + cal_mjd_b (d.month : ℤ) (d.day : ℚ) d.year + (d.day : ℤ)
            - 2401525 : ℤ) : ℚ) := by
      unfold mjd_from_gregorian_date cal_mjd
      push_cast
      ring
    rw [h, Int.fract_intCast]

/-- Claim C3, counterexample: decimal_to_time does not accept every finite
non-negative input; at 25.0 the decomposed hour is 25, chrono rejects it, and
the call returns the anyhow error instead of succeeding. -/
theorem decimal_to_time_errors_at_25 :
    decimal_to_time ⟨false, 25⟩ = DecodeOutcome.fails "Time conversion failed" :=
  decimal_to_time_fails_of_ge 25 (by norm_num)

/-- Claim C3 as amended: decimal_to_time panics through its assert when the
sign bit is set (it never returns an error value for negative input), and for
sign-positive finite input it returns Ok exactly when the value is below 24,
returning the conversion error for 24 and above. -/
theorem decimal_to_time_domain (m : ℚ) (h0 : 0 ≤ m) :
    decimal_to_time ⟨true, m⟩ = DecodeOutcome.panics
    ∧ (m < 24 → ∃ t, decimal_to_time ⟨false, m⟩ = DecodeOutcome.ok t)
    ∧ (24 ≤ m → decimal_to_time ⟨false, m⟩
        = DecodeOutcome.fails "Time conversion failed") := by
  refine ⟨rfl, fun hlt => ⟨_, decimal_to_time_ok_of_lt m h0 hlt⟩,
    fun hge => decimal_to_time_fails_of_ge m hge⟩

/-- Witness for claim C3 at the concrete magnitude 3. -/
theorem decimal_to_time_domain_witness :
    decimal_to_time ⟨true, 3⟩ = DecodeOutcome.panics
    ∧ (∃ t, decimal_to_time ⟨false, 3⟩ = DecodeOutcome.ok t) :=
  ⟨(decimal_to_time_domain 3 (by norm_num)).1,
    (decimal_to_time_domain 3 (by norm_num)).2.1 (by norm_num)⟩

/-- Claim C4: the countdown to the target clock time is the signed difference
target minus current, wrapped forward by 24 hours when negative, hence always
in [0, 24h); with the fixed 13:30:00 target, 14:00:00 yields 23:30:00 and
10:00:00 yields 03:30:00, as displayed through decimal_to_time. -/
theorem countdown_correct :
    (∀ c g : Time, validTime c → validTime g →
      (0 ≤ time_until c g ∧ time_until c g < 86400000000000)
      ∧ (signed_duration_since g c < 0 →
          time_until c g = signed_duration_since g c + 86400000000000)
      ∧ (0 ≤ signed_duration_since g c →
          time_until c g = signed_duration_since g c))
    ∧ time_until_peak ⟨14, 0, 0, 0⟩ = 84600000000000
    ∧ decimal_to_time ⟨false, (84600000000000 : ℚ) / 1000000000 / 60 / 60⟩
        = DecodeOutcome.ok ⟨23, 30, 0, 0⟩
    ∧ time_until_peak ⟨10, 0, 0, 0⟩ = 12600000000000
    ∧ decimal_to_time ⟨false, (12600000000000 : ℚ) / 1000000000 / 60 / 60⟩
        = DecodeOutcome.ok ⟨3, 30, 0, 0⟩ := by
  refine ⟨?_, ?_, ?_, ?_, ?_⟩
  · intro c g hc hg
    obtain ⟨h1, h2, h3, h4⟩ := hc
    obtain ⟨h5, h6, h7, h8⟩ := hg
    have hcb : timeNanos c < 86400000000000 := by
      unfold timeNanos
      have : (c.hour * 3600 + c.minute * 60 + c.second) * 1000000000
          + c.nanosecond < 86400000000000 := by omega
      exact_mod_cast this
    have hcb0 : 0 ≤ timeNanos c := by
      unfold timeNanos
      exact_mod_cast Nat.zero_le _
    have hgb : timeNanos g < 86400000000000 := by
      unfold timeNanos
      have : (g.hour * 3600 + g.minute * 60 + g.second) * 1000000000
          + g.nanosecond < 86400000000000 := by omega
      exact_mod_cast this
    have hgb0 : 0 ≤ timeNanos g := by
      unfold timeNanos
      exact_mod_cast Nat.zero_le _
    refine ⟨⟨?_, ?_⟩, fun hneg => ?_, fun hpos => ?_⟩
    · unfold time_until signed_duration_since
      split <;> omega
    · unfold time_until signed_duration_since
      split <;> omega
    · unfold signed_duration_since at hneg
      unfold time_until signed_duration_since
      split <;> omega
    · unfold signed_duration_since at hpos
      unfold time_until signed_duration_since
      split <;> omega
  · norm_num [time_until_peak, time_until, signed_duration_since, timeNanos,
      spotiswoode_peak_time]
  · have hq : (84600000000000 : ℚ) / 1000000000 / 60 / 60
        = utc_to_float ⟨23, 30, 0, 0⟩ := by
      norm_num [utc_to_float]
    rw [hq]
    exact decode_decimal_hours ⟨23, 30, 0, 0⟩ (by norm_num [validTime])
  · norm_num [time_until_peak, time_until, signed_duration_since, timeNanos,
      spotiswoode_peak_time]
  · have hq : (12600000000000 : ℚ) / 1000000000 / 60 / 60
        = utc_to_float ⟨3, 30, 0, 0⟩ := by
      norm_num [utc_to_float]
    rw [hq]
    exact decode_decimal_hours ⟨3, 30, 0, 0⟩ (by norm_num [validTime])

/-- Witness for claim C4 at the concrete times 14:00:00 and 13:30:00. -/
theorem countdown_correct_witness :
    0 ≤ time_until ⟨14, 0, 0, 0⟩ ⟨13, 30, 0, 0⟩
    ∧ time_until ⟨14, 0, 0, 0⟩ ⟨13, 30, 0, 0⟩ < 86400000000000 :=
  (countdown_correct.1 ⟨14, 0, 0, 0⟩ ⟨13, 30, 0, 0⟩ (by norm_num [validTime])
    (by norm_num [validTime])).1

/-- Claim C6: greenwich_mean_sidereal_time depends on the date only through
the floor of the date-only MJD and on the time only through utc_to_float, and
its result is not normalized into [0, 24): at 2000-01-01 23:59:59 UTC the
modelled value is at least 24. -/
theorem gmst_dependency_structure :
    (∀ d1 d2 : Date, ∀ t1 t2 : Time,
        ⌊mjd_from_gregorian_date d1⌋ = ⌊mjd_from_gregorian_date d2⌋ →
        utc_to_float t1 = utc_to_float t2 →
        greenwich_mean_sidereal_time ⟨d1, t1⟩ = greenwich_mean_sidereal_time ⟨d2, t2⟩)
    ∧ 24 ≤ greenwich_mean_sidereal_time ⟨⟨2000, 1, 1⟩, ⟨23, 59, 59, 0⟩⟩ := by
  constructor
  · intro d1 d2 t1 t2 hd ht
    unfold greenwich_mean_sidereal_time
    rw [hd, ht]
  · have hmjd : mjd_from_gregorian_date ⟨2000, 1, 1⟩ = 51544 := by
      norm_num [mjd_from_gregorian_date, cal_mjd, cal_mjd_b, cal_mjd_c, cal_mjd_d,
        cal_mjd_y, cal_mjd_m]
    unfold greenwich_mean_sidereal_time
    rw [hmjd]
    norm_num [utc_gst, utc_to_float]

/-- Witness for claim C6: two representations of the same instant (1:00:00
and 0 hours 60 minutes) produce the same GMST. -/
theorem gmst_dependency_structure_witness :
    greenwich_mean_sidereal_time ⟨⟨2000, 1, 1⟩, ⟨1, 0, 0, 0⟩⟩
      = greenwich_mean_sidereal_time ⟨⟨2000, 1, 1⟩, ⟨0, 60, 0, 0⟩⟩ :=
  gmst_dependency_structure.1 ⟨2000, 1, 1⟩ ⟨2000, 1, 1⟩ ⟨1, 0, 0, 0⟩ ⟨0, 60, 0, 0⟩
    rfl (by norm_num [utc_to_float])

/-- Claim C7: get_timezone returns the no-timezone error on zero matches,
the unique converted zone on exactly one match, and the ambiguous-timezone
error on two or more matches, never silently picking one. -/
theorem get_timezone_policy :
    ∀ (finder : ℚ → ℚ → List String) (fromStr : String → Option String)
      (lat lon : ℚ),
      (finder lon lat = [] →
        get_timezone finder fromStr lat lon = TzResult.noTimezoneFound)
      ∧ (∀ t z, finder lon lat = [t] → fromStr t = some z →
          get_timezone finder fromStr lat lon = TzResult.ok z)
      ∧ (∀ t1 t2 rest, finder lon lat = t1 :: t2 :: rest →
          get_timezone finder fromStr lat lon = TzResult.ambiguousTimezone) := by
  intro finder fromStr lat lon
  refine ⟨fun h => ?_, fun t z h1 h2 => ?_, fun t1 t2 rest h => ?_⟩
  · unfold get_timezone
    rw [h]
  · unfold get_timezone
    rw [h1]
    show (match fromStr t with
      | some tz => TzResult.ok tz
      | none => TzResult.conversionFailed) = TzResult.ok z
    rw [h2]
  · unfold get_timezone
    rw [h]

/-- Witness for claim C7 on a one-element finder result. -/
theorem get_timezone_policy_witness :
    get_timezone (fun _ _ => ["Asia/Seoul"]) (fun s => some s) 37 127
      = TzResult.ok "Asia/Seoul" :=
  (get_timezone_policy (fun _ _ => ["Asia/Seoul"]) (fun s => some s) 37 127).2.1
    "Asia/Seoul" "Asia/Seoul" rfl rfl

/-- Claim C8: for every valid clock time, decoding the decimal-hours encoding
(utc_to_float) through decimal_to_time returns the same clock time; over the
exact rational embedding the round trip is the identity, which is within the
claimed sub-microsecond tolerance. -/
theorem decode_encode_roundtrip :
    ∀ t : Time, validTime t →
      decimal_to_time ⟨false, utc_to_float t⟩ = DecodeOutcome.ok t :=
  fun t h => decode_decimal_hours t h

/-- Witness for claim C8 at 13:30:00. -/
theorem decode_encode_roundtrip_witness :
    decimal_to_time ⟨false, utc_to_float ⟨13, 30, 0, 0⟩⟩
      = DecodeOutcome.ok ⟨13, 30, 0, 0⟩ :=
  decode_encode_roundtrip ⟨13, 30, 0, 0⟩ (by norm_num [validTime])

/-- Claim C9, counterexample: the two MJD conversions disagree at
2000-01-01 01:00:00 — libastro.rs adds hour/24 inside the day argument while
main.rs adds the full decimal hour, so the values differ by 23/24 day. -/
theorem mjd_duplicates_differ :
    mjd_from_gregorian ⟨⟨2000, 1, 1⟩, ⟨1, 0, 0, 0⟩⟩
      ≠ mjd_from_gregorian_datetime ⟨⟨2000, 1, 1⟩, ⟨1, 0, 0, 0⟩⟩ := by
  norm_num [mjd_from_gregorian, mjd_from_gregorian_datetime, mjd_from_gregorian_date,
    utc_to_float, cal_mjd, cal_mjd_b, cal_mjd_c, cal_mjd_d, cal_mjd_y, cal_mjd_m]

/-- Claim C9 as amended: the two MJD conversions agree exactly on datetimes
whose hour and nanosecond are zero (with in-range minute and second); the
minute/60 and second/3600 terms coincide in both, and only the hour and
sub-second handling differ. -/
theorem mjd_duplicates_agree_at_midnight :
    ∀ dt : DateTime, dt.time.hour = 0 → dt.time.nanosecond = 0 →
      dt.time.minute < 60 → dt.time.second < 60 →
      mjd_from_gregorian dt = mjd_from_gregorian_datetime dt := by
  intro dt h0 hn hm hs
  have hm59 : (dt.time.minute : ℚ) ≤ 59 := by
    have : dt.time.minute ≤ 59 := by omega
    exact_mod_cast this
  have hs59 : (dt.time.second : ℚ) ≤ 59 := by
    have : dt.time.second ≤ 59 := by omega
    exact_mod_cast this
  have hmq : (0 : ℚ) ≤ (dt.time.minute : ℚ) := Nat.cast_nonneg _
  have hsq : (0 : ℚ) ≤ (dt.time.second : ℚ) := Nat.cast_nonneg _
  have hb : cal_mjd_b (dt.date.month : ℤ)
        ((dt.date.day : ℚ) + (dt.time.hour : ℚ) / 24 + (dt.time.minute : ℚ) / 60
          + (dt.time.second : ℚ) / 3600) dt.date.year
      = cal_mjd_b (dt.date.month : ℤ) ((dt.date.day : ℚ)) dt.date.year := by
    rw [h0]
    unfold cal_mjd_b
    have hiff : ((dt.date.day : ℚ) + ((0 : ℕ) : ℚ) / 24 + (dt.time.minute : ℚ) / 60
          + (dt.time.second : ℚ) / 3600 < 15) ↔ ((dt.date.day : ℚ) < 15) := by
      have hd0 : (0 : ℚ) ≤ (dt.date.day : ℚ) := Nat.cast_nonneg _
      constructor
      · intro h
        push_cast at h
        linarith
      · intro h
        have hle : (dt.date.day : ℚ) ≤ 14 := by
          have h15 : dt.date.day < 15 := by exact_mod_cast h
          have : dt.date.day ≤ 14 := by omega
          exact_mod_cast this
        push_cast
        linarith
    simp only [hiff]
  unfold mjd_from_gregorian mjd_from_gregorian_datetime mjd_from_gregorian_date
    cal_mjd utc_to_float
  rw [hb, h0, hn]
  push_cast
  ring

/-- Witness for claim C9 at 2000-01-01 00:30:00. -/
theorem mjd_duplicates_agree_at_midnight_witness :
    mjd_from_gregorian ⟨⟨2000, 1, 1⟩, ⟨0, 30, 0, 0⟩⟩
      = mjd_from_gregorian_datetime ⟨⟨2000, 1, 1⟩, ⟨0, 30, 0, 0⟩⟩ :=
  mjd_duplicates_agree_at_midnight ⟨⟨2000, 1, 1⟩, ⟨0, 30, 0, 0⟩⟩ rfl rfl
    (by norm_num) (by norm_num)

/-- Claim C10: every input whose sign bit is set makes the assert of
decimal_to_time fail, modelled as a panic before any decomposition; this
includes negative zero, whose rational value is 0 and hence satisfies the
documented non-negativity precondition. -/
theorem decimal_to_time_sign_bit_panics :
    (∀ x : F64, x.sign = true → decimal_to_time x = DecodeOutcome.panics)
    ∧ F64.toRat ⟨true, 0⟩ = 0
    ∧ decimal_to_time ⟨true, 0⟩ = DecodeOutcome.panics := by
  refine ⟨?_, by norm_num [F64.toRat], rfl⟩
  intro x hx
  obtain ⟨s, v⟩ := x
  cases hx
  rfl

/-- Witness for claim C10 at sign bit set with magnitude 5. -/
theorem decimal_to_time_sign_bit_panics_witness :
    decimal_to_time ⟨true, 5⟩ = DecodeOutcome.panics :=
  decimal_to_time_sign_bit_panics.1 ⟨true, 5⟩ rfl

end Sidtime
